import Mathlib

/-!
Verification of the message-pipeline program in `main.py` against its
design specification.

The embedding below translates the program's functions into Lean
definitions.  External effects (the HTTP client, the random draw, the
clock, the typedstream parser, message delivery) are passed in as
explicit parameters, so every definition is an executable pure function
whose control flow mirrors the Python source line by line.
-/

namespace DeepiMessage

/-! ## ResponseGenerator: `generate_response`

The Python function loops `for attempt in range(retries)` over the
primary model.  Each attempt ends in one of four ways, matching the
`except` clauses of the source: a successful response, an
`httpx.HTTPStatusError` (4xx/5xx raised by `raise_for_status`), an
`httpx.RequestError` (transport-level: connection error or timeout), or
any other exception.  The outcome of attempt `i` is supplied by the
environment function `primary : Nat → Outcome`; the single fallback
request's outcome is supplied by `fallback : Outcome`. -/

inductive Outcome where
  | success (text : String)
  | httpStatusError
  | requestError
  | generalError
deriving DecidableEq, Repr

/-- Result of the `for attempt in range(retries)` loop of
`generate_response`: how many primary requests were issued, the sleeps
(in seconds) performed between attempts, and `some r` when the loop
executed a `return r` (with `r = none` for the status-error and
general-exception paths), or `none` when the loop exhausted all
attempts. -/
structure LoopResult where
  attempts : Nat
  sleeps : List Nat
  outcome : Option (Option String)
deriving DecidableEq, Repr

/-- The primary-model retry loop of `generate_response`, iterated over
the list of attempt indices (`range(retries)` in the source).
On `RequestError` the source sleeps `2 ** attempt` seconds, but only
when `attempt < retries - 1` ("Don't wait after the last attempt"). -/
def primaryLoop (retries : Nat) (primary : Nat → Outcome) : List Nat → LoopResult
  | [] => ⟨0, [], none⟩
  | attempt :: rest =>
    match primary attempt with
    | .success t => ⟨1, [], some (some t)⟩
    | .httpStatusError => ⟨1, [], some none⟩
    | .generalError => ⟨1, [], some none⟩
    | .requestError =>
      ⟨(primaryLoop retries primary rest).attempts + 1,
       (if attempt < retries - 1 then [2 ^ attempt] else [])
         ++ (primaryLoop retries primary rest).sleeps,
       (primaryLoop retries primary rest).outcome⟩

/-- httpx semantics for the effective timeout of a request: a timeout
given at the request call site overrides the timeout the client was
constructed with. -/
def effectiveTimeout (clientTimeout requestTimeout : Option Nat) : Option Nat :=
  match requestTimeout with
  | some t => some t
  | none => clientTimeout

/-- Observable trace of one `generate_response` call: number of primary
requests, sleeps performed, number of fallback requests, the effective
timeout of the fallback request when one was made, and the returned
value. -/
structure GenTrace where
  primaryAttempts : Nat
  sleeps : List Nat
  fallbackAttempts : Nat
  fallbackEffectiveTimeout : Option Nat
  result : Option String
deriving DecidableEq, Repr

/-- `generate_response`:  returns `None` immediately when the API key is
missing; otherwise runs the primary retry loop; if the loop exhausts all
attempts (every attempt raised `RequestError`), issues exactly one
request against the fallback model using a client constructed with
`timeout=900.0` but a `post(..., timeout=30)` call, any exception of
which yields `None`. -/
def generate_response (apiKey : Option String) (retries : Nat)
    (primary : Nat → Outcome) (fallback : Outcome) : GenTrace :=
  match apiKey with
  | none => ⟨0, [], 0, none, none⟩
  | some _ =>
    let lr := primaryLoop retries primary (List.range retries)
    match lr.outcome with
    | some r => ⟨lr.attempts, lr.sleeps, 0, none, r⟩
    | none =>
      let fr := match fallback with
        | .success t => some t
        | _ => none
      ⟨lr.attempts, lr.sleeps, 1, effectiveTimeout (some 900) (some 30), fr⟩

/-- The constant `retries = 1` of the source ("Reduced retries for
deepseek-reasoner"). -/
def RETRIES : Nat := 1

/-- When every attempt in a contiguous block of attempt indices raises
`RequestError`, the loop issues all of them, sleeps `2 ^ i` seconds
after each attempt `i` that is not the last one overall, and exhausts. -/
lemma primaryLoop_all_requestError (retries : Nat) (primary : Nat → Outcome) :
    ∀ n a, (∀ i, i < n → primary (a + i) = .requestError) →
      primaryLoop retries primary (List.range' a n) =
        ⟨n, (List.range' a n).filterMap
              (fun i => if i < retries - 1 then some (2 ^ i) else none), none⟩ := by
  intro n
  induction n with
  | zero => intro a _; simp [primaryLoop]
  | succ n ih =>
    intro a h
    rw [List.range'_succ]
    have h0 : primary a = .requestError := by simpa using h 0 (Nat.succ_pos n)
    have hrest := ih (a + 1) (fun i hi => by
      have := h (i + 1) (by omega)
      simpa [Nat.add_assoc, Nat.add_comm 1 i] using this)
    simp only [primaryLoop, h0, hrest, List.filterMap_cons]
    by_cases hc : a < retries - 1 <;> simp [hc]

/-- When attempts `a, …, a+n-1` raise `RequestError` and attempt `a+n`
succeeds (with `a+n` a valid attempt index), the loop issues exactly
`n + 1` requests, sleeps `2 ^ i` after each failed attempt `i`, and
returns the successful text. -/
lemma primaryLoop_requestError_then_success (retries : Nat)
    (primary : Nat → Outcome) (t : String) :
    ∀ n a, a + n < retries →
      (∀ i, i < n → primary (a + i) = .requestError) →
      primary (a + n) = .success t →
      primaryLoop retries primary (List.range' a (n + 1)) =
        ⟨n + 1, (List.range' a n).map (fun i => 2 ^ i), some (some t)⟩ := by
  intro n
  induction n with
  | zero =>
    intro a _ _ hs
    rw [List.range'_one]
    simp only [Nat.add_zero] at hs
    simp [primaryLoop, hs]
  | succ n ih =>
    intro a hlt hf hs
    have h0 : primary a = .requestError := by simpa using hf 0 (Nat.succ_pos n)
    have hrest := ih (a + 1) (by omega)
      (fun i hi => by
        have := hf (i + 1) (by omega)
        simpa [Nat.add_assoc, Nat.add_comm 1 i] using this)
      (by simpa [Nat.add_assoc, Nat.add_comm 1 n] using hs)
    have ha : a < retries - 1 := by omega
    calc primaryLoop retries primary (List.range' a (n + 1 + 1))
        = primaryLoop retries primary (a :: List.range' (a + 1) (n + 1)) := by
          rw [List.range'_succ]
      _ = ⟨(primaryLoop retries primary (List.range' (a + 1) (n + 1))).attempts + 1,
            (if a < retries - 1 then [2 ^ a] else [])
              ++ (primaryLoop retries primary (List.range' (a + 1) (n + 1))).sleeps,
            (primaryLoop retries primary (List.range' (a + 1) (n + 1))).outcome⟩ := by
          simp only [primaryLoop, h0]
      _ = ⟨n + 1 + 1, List.map (fun i => 2 ^ i) (List.range' a (n + 1)), some (some t)⟩ := by
          rw [hrest, List.range'_succ]
          simp [ha]

/-- C1.  With `retries = R + 1` total primary attempts: if attempts
`0, …, R-1` each raise a transport-level `RequestError` and attempt `R`
succeeds, then exactly `R + 1` primary requests are issued, the sleeps
performed are `2^0, …, 2^(R-1)` seconds, the fallback model is never
called, and the successful text is returned; if instead all `R + 1`
attempts raise `RequestError`, the fallback model is called exactly
once. -/
theorem claim_C1_retry_backoff_fallback (R : Nat) (t key : String)
    (primary : Nat → Outcome) (fallback : Outcome)
    (hfail : ∀ i, i < R → primary i = .requestError) :
    (primary R = .success t →
      generate_response (some key) (R + 1) primary fallback =
        ⟨R + 1, (List.range R).map (fun i => 2 ^ i), 0, none, some t⟩)
    ∧ (primary R = .requestError →
      (generate_response (some key) (R + 1) primary fallback).primaryAttempts = R + 1
      ∧ (generate_response (some key) (R + 1) primary fallback).fallbackAttempts = 1) := by
  constructor
  · intro hs
    have hloop := primaryLoop_requestError_then_success (R + 1) primary t R 0
      (by omega) (fun i hi => by simpa using hfail i hi) (by simpa using hs)
    simp only [generate_response, List.range_eq_range', hloop]
  · intro hlast
    have hall : ∀ i, i < R + 1 → primary (0 + i) = .requestError := by
      intro i hi
      rcases Nat.lt_or_ge i R with h | h
      · simpa using hfail i h
      · have : i = R := by omega
        simpa [this] using hlast
    have hloop := primaryLoop_all_requestError (R + 1) primary (R + 1) 0 hall
    simp only [generate_response, List.range_eq_range', hloop]
    exact ⟨trivial, trivial⟩

/-- A primary schedule whose first two attempts raise `RequestError`
and whose later attempts succeed; used to instantiate the retry
theorem. -/
def primTwoFail : Nat → Outcome :=
  fun i => if i < 2 then .requestError else .success "ok"

/-- Witness for C1 at `R = 2`: three primary attempts, sleeps of
`2^0 = 1` and `2^1 = 2` seconds, no fallback call, text returned. -/
theorem claim_C1_retry_backoff_fallback_witness :
    generate_response (some "key") 3 primTwoFail .requestError =
      ⟨3, [1, 2], 0, none, some "ok"⟩ := by
  have h := (claim_C1_retry_backoff_fallback 2 "ok" "key" primTwoFail .requestError
    (by decide)).1 (by decide)
  simpa using h

/-- C2 counterexample: with the source's `retries = 1` and the single
primary attempt raising `HTTPStatusError` (a 4xx/5xx), the call returns
`None` with zero fallback attempts — the failure does NOT escalate to
the fallback model, contrary to the claim. -/
theorem claim_C2_counterexample :
    (generate_response (some "key") RETRIES (fun _ => .httpStatusError)
        (.success "fb")).fallbackAttempts = 0
    ∧ (generate_response (some "key") RETRIES (fun _ => .httpStatusError)
        (.success "fb")).result = none := by
  decide

/-- C2 amended: when the first primary attempt fails with an HTTP
status error (4xx/5xx), the primary model is not retried and the call
returns `None` immediately; the fallback model is not attempted. -/
theorem claim_C2_amended_status_terminal (key : String) (retries : Nat)
    (primary : Nat → Outcome) (fallback : Outcome)
    (h1 : 1 ≤ retries) (h0 : primary 0 = .httpStatusError) :
    generate_response (some key) retries primary fallback = ⟨1, [], 0, none, none⟩ := by
  obtain ⟨n, rfl⟩ : ∃ n, retries = n + 1 := ⟨retries - 1, by omega⟩
  simp only [generate_response, List.range_eq_range', List.range'_succ]
  simp [primaryLoop, h0]

/-- Witness for the amended C2 at the source's `retries = 1`. -/
theorem claim_C2_amended_status_terminal_witness :
    generate_response (some "key") RETRIES (fun _ => .httpStatusError) .requestError =
      ⟨1, [], 0, none, none⟩ :=
  claim_C2_amended_status_terminal "key" RETRIES (fun _ => .httpStatusError)
    .requestError (by decide) rfl

/-- C3 evaluation at the failing input: when the (single) primary
attempt raises `RequestError`, exactly one fallback request is issued
and nothing is retried after it, but its effective timeout is 30
seconds — the `timeout=30` passed to `post` overrides the `900.0` the
fallback client was constructed with — not the 900 seconds the claim
states. -/
theorem claim_C3_fallback_effective_timeout :
    (generate_response (some "key") RETRIES (fun _ => .requestError)
        (.success "fb")).fallbackAttempts = 1
    ∧ (generate_response (some "key") RETRIES (fun _ => .requestError)
        (.success "fb")).fallbackEffectiveTimeout = some 30
    ∧ (generate_response (some "key") RETRIES (fun _ => .requestError)
        (.success "fb")).fallbackEffectiveTimeout ≠ some 900
    ∧ (generate_response (some "key") RETRIES (fun _ => .requestError)
        (.success "fb")).result = some "fb" := by
  decide

/-! ## MessageCoalescer: `process_messages`

A fetched row carries `(rowid, text, attributedBody, chat_identifier,
date)`.  The source computes `content = text or
decode_attributed_body(attributed_body)`; we carry the decoder's result
for the row directly as `decodedBody` (the decoder itself is modelled
separately below).  Timestamps are Apple epoch nanoseconds; the source
compares `(message_time - last_message_time).total_seconds() <=
MESSAGE_WINDOW` after dividing by 10^9, which over exact arithmetic is
`ts - last ≤ MESSAGE_WINDOW * 10^9`. -/

structure MsgRow where
  rowid : Nat
  text : Option String
  decodedBody : Option String
  chat : String
  ts : Int
deriving DecidableEq, Repr

/-- The source's `MESSAGE_WINDOW = 10` (seconds). -/
def MESSAGE_WINDOW : Int := 10

/-- The coalescing window expressed in the nanosecond unit of the raw
timestamps. -/
def WINDOW_NS : Int := MESSAGE_WINDOW * 1000000000

/-- Python's `text or decode_attributed_body(attributed_body)`:
`text` when it is truthy (present and nonempty), otherwise the decoder
result. -/
def rowContent (m : MsgRow) : Option String :=
  match m.text with
  | some t => if t = "" then m.decodedBody else some t
  | none => m.decodedBody

/-- The content of a row after the `if not content: continue` truthiness
check: `none` exactly when the row is skipped as empty. -/
def rowContentStr (m : MsgRow) : Option String :=
  match rowContent m with
  | some s => if s = "" then none else some s
  | none => none

/-- A row survives the empty-content skip. -/
def hasContent (m : MsgRow) : Bool :=
  (rowContentStr m).isSome

/-- Ordering of rows by timestamp, the key of
`message_list.sort(key=lambda x: x[3])`. -/
def tsLE (a b : MsgRow) : Prop := a.ts ≤ b.ts

instance : DecidableRel tsLE :=
  fun a b => inferInstanceAs (Decidable (a.ts ≤ b.ts))

instance : IsTotal MsgRow tsLE := ⟨fun a b => Int.le_total a.ts b.ts⟩

instance : IsTrans MsgRow tsLE := ⟨fun _ _ _ => Int.le_trans⟩

/-- `message_list.sort(key=lambda x: x[3])`: ascending sort by
timestamp. -/
def sortByTs (msgs : List MsgRow) : List MsgRow :=
  List.insertionSort tsLE msgs

/-- The per-conversation coalescing loop of `process_messages`,
abstracted to the batch structure: `combined` is the list of rows whose
contents the source has accumulated into `combined_content`, and
`lastT` is `last_message_time`.  Empty-content rows are skipped without
touching either.  A row within `MESSAGE_WINDOW` of the last accumulated
row joins the current batch; a larger gap emits the current batch (the
source guards the emission with `if combined_content:`) and starts a new
one; the final open batch is emitted at end of input under the same
guard. -/
def coalesceGo : List MsgRow → Option Int → List MsgRow → List (List MsgRow)
  | [], _, combined => if combined = [] then [] else [combined]
  | m :: rest, lastT, combined =>
    match rowContentStr m with
    | none => coalesceGo rest lastT combined
    | some _ =>
      match lastT with
      | none => coalesceGo rest (some m.ts) (combined ++ [m])
      | some lt =>
        if m.ts - lt ≤ WINDOW_NS then
          coalesceGo rest (some m.ts) (combined ++ [m])
        else
          (if combined = [] then [] else [combined])
            ++ coalesceGo rest (some m.ts) [m]

/-- Coalescing one conversation's rows: sort by timestamp, then run the
windowed accumulation loop from the empty state. -/
def coalesce (msgs : List MsgRow) : List (List MsgRow) :=
  coalesceGo (sortByTs msgs) none []

/-- Adjacent members of a batch are at most the coalescing window
apart. -/
def gapOK (a b : MsgRow) : Prop :=
  b.ts - a.ts ≤ WINDOW_NS

instance (a b : MsgRow) : Decidable (gapOK a b) := by
  unfold gapOK; infer_instance

/-- Flattening the emitted batches recovers the accumulated batch
followed by every remaining row that survives the empty-content skip. -/
lemma coalesceGo_flatten :
    ∀ (l : List MsgRow) (lastT : Option Int) (combined : List MsgRow),
      (coalesceGo l lastT combined).flatten = combined ++ l.filter hasContent := by
  intro l
  induction l with
  | nil =>
    intro lastT combined
    by_cases h : combined = [] <;> simp [coalesceGo, h]
  | cons m rest ih =>
    intro lastT combined
    cases hc : rowContentStr m with
    | none =>
      have hm : hasContent m = false := by simp [hasContent, hc]
      simp only [coalesceGo, hc, List.filter_cons, hm]
      simp [ih]
    | some c =>
      have hm : hasContent m = true := by simp [hasContent, hc]
      cases lastT with
      | none =>
        simp only [coalesceGo, hc, List.filter_cons, hm, if_pos]
        simp [ih]
      | some lt =>
        simp only [coalesceGo, hc, List.filter_cons, hm, if_pos]
        by_cases hw : m.ts - lt ≤ WINDOW_NS
        · simp only [if_pos hw]
          simp [ih]
        · simp only [if_neg hw]
          by_cases hcomb : combined = [] <;> simp [hcomb, ih]

/-- Every batch emitted from a state whose accumulated rows are chained
within the window (with the tracked `last_message_time` equal to the
last accumulated row's timestamp) is itself chained within the
window. -/
lemma coalesceGo_chain :
    ∀ (l : List MsgRow) (lastT : Option Int) (combined : List MsgRow),
      List.Chain' gapOK combined →
      (lastT = none → combined = []) →
      (∀ lt, lastT = some lt → ∀ x ∈ combined.getLast?, x.ts = lt) →
      ∀ b ∈ coalesceGo l lastT combined, List.Chain' gapOK b := by
  intro l
  induction l with
  | nil =>
    intro lastT combined hchain _ _ b hb
    by_cases h : combined = []
    · simp [coalesceGo, h] at hb
    · simp only [coalesceGo, if_neg h, List.mem_singleton] at hb
      exact hb ▸ hchain
  | cons m rest ih =>
    intro lastT combined hchain hnone hlast b hb
    cases hc : rowContentStr m with
    | none =>
      simp only [coalesceGo, hc] at hb
      exact ih lastT combined hchain hnone hlast b hb
    | some c =>
      cases lastT with
      | none =>
        have hcomb : combined = [] := hnone rfl
        simp only [coalesceGo, hc, hcomb] at hb
        refine ih (some m.ts) [m] (List.chain'_singleton m) (by simp)
          (fun lt hlt x hx => ?_) b hb
        simp at hx hlt
        exact hx ▸ hlt
      | some lt =>
        by_cases hw : m.ts - lt ≤ WINDOW_NS
        · simp only [coalesceGo, hc, if_pos hw] at hb
          have hchain' : List.Chain' gapOK (combined ++ [m]) := by
            rw [List.chain'_append]
            refine ⟨hchain, List.chain'_singleton m, fun x hx y hy => ?_⟩
            simp only [List.head?_cons, Option.mem_def, Option.some.injEq] at hy
            have hxts : x.ts = lt := hlast lt rfl x hx
            rw [← hy]
            unfold gapOK
            rw [hxts]
            exact hw
          refine ih (some m.ts) (combined ++ [m]) hchain' (by simp)
            (fun lt' hlt' x hx => ?_) b hb
          rw [List.getLast?_concat] at hx
          simp at hx hlt'
          exact hx ▸ hlt'
        · simp only [coalesceGo, hc, if_neg hw] at hb
          rw [List.mem_append] at hb
          rcases hb with hb | hb
          · by_cases hcomb : combined = []
            · simp [hcomb] at hb
            · simp only [if_neg hcomb, List.mem_singleton] at hb
              exact hb ▸ hchain
          · refine ih (some m.ts) [m] (List.chain'_singleton m) (by simp)
              (fun lt' hlt' x hx => ?_) b hb
            simp at hx hlt'
            exact hx ▸ hlt'

/-- Removing the empty-content rows from the input changes nothing:
skipped rows neither join a batch nor reset the window. -/
lemma coalesceGo_filter_hasContent :
    ∀ (l : List MsgRow) (lastT : Option Int) (combined : List MsgRow),
      coalesceGo (l.filter hasContent) lastT combined =
        coalesceGo l lastT combined := by
  intro l
  induction l with
  | nil => intro _ _; rfl
  | cons m rest ih =>
    intro lastT combined
    cases hc : rowContentStr m with
    | none =>
      have hm : hasContent m = false := by simp [hasContent, hc]
      simp only [List.filter_cons, hm, if_neg]
      simp only [coalesceGo, hc]
      exact ih lastT combined
    | some c =>
      have hm : hasContent m = true := by simp [hasContent, hc]
      simp only [List.filter_cons, hm, if_pos]
      cases lastT with
      | none =>
        simp only [coalesceGo, hc]
        exact ih (some m.ts) (combined ++ [m])
      | some lt =>
        simp only [coalesceGo, hc]
        by_cases hw : m.ts - lt ≤ WINDOW_NS
        · simp only [if_pos hw]
          exact ih (some m.ts) (combined ++ [m])
        · simp only [if_neg hw]
          rw [ih (some m.ts) [m]]

/-- C4.  Batches partition the non-empty-content rows of the
chronologically sorted input exactly (flattening the batches gives
precisely the non-empty rows, in sorted order, and the sorted list is a
permutation of the input ordered by timestamp); no batch has a gap
between consecutive members exceeding `MESSAGE_WINDOW`; empty-content
rows are skipped without resetting the window (filtering them out first
yields the same batches); and the final open batch is flushed (it
appears in the flattening like every other). -/
theorem claim_C4_coalescer_partition (msgs : List MsgRow) :
    ((coalesce msgs).flatten = (sortByTs msgs).filter hasContent)
    ∧ (∀ b ∈ coalesce msgs, List.Chain' gapOK b)
    ∧ (coalesceGo ((sortByTs msgs).filter hasContent) none [] = coalesce msgs)
    ∧ (sortByTs msgs).Perm msgs
    ∧ (sortByTs msgs).Pairwise (fun a b => a.ts ≤ b.ts) := by
  refine ⟨?_, ?_, ?_, ?_, ?_⟩
  · simpa using coalesceGo_flatten (sortByTs msgs) none []
  · exact fun b hb =>
      coalesceGo_chain (sortByTs msgs) none [] List.chain'_nil
        (fun _ => rfl) (by simp) b hb
  · exact coalesceGo_filter_hasContent (sortByTs msgs) none []
  · exact List.perm_insertionSort tsLE msgs
  · exact List.sorted_insertionSort tsLE msgs

/-- Three rows of the spec's end-to-end scenario: conversation "A" at
t = 0 s, 5 s and 25 s with `MESSAGE_WINDOW = 10`. -/
def exRow1 : MsgRow := ⟨1, some "hi", none, "A", 0⟩

def exRow2 : MsgRow := ⟨2, some "there", none, "A", 5000000000⟩

def exRow3 : MsgRow := ⟨3, some "late", none, "A", 25000000000⟩

/-- Witness for C4 at the concrete scenario: the partition equation
holds and the batch containing the first two rows is chained within the
window. -/
theorem claim_C4_coalescer_partition_witness :
    (coalesce [exRow1, exRow2, exRow3]).flatten =
        (sortByTs [exRow1, exRow2, exRow3]).filter hasContent
    ∧ List.Chain' gapOK [exRow1, exRow2] := by
  have h := claim_C4_coalescer_partition [exRow1, exRow2, exRow3]
  exact ⟨h.1, h.2.1 [exRow1, exRow2] (by decide)⟩

/-! ## `process_messages` with generation and delivery

The observable effects of `process_messages`: each completed batch
triggers one `generate_response` call on the combined content, and, on
success, delivery either back to the originating chat
(`REPLY_TO_SENDER`) or to every configured number.  The generation
backend is passed in as `gen : String → Option String`. -/

inductive Action where
  | generated (prompt : String)
  | sent (recipient : String) (text : String)
deriving DecidableEq, Repr

/-- The dispatch block run for a completed `combined_content`: generate,
then on success send to the original sender or broadcast. -/
def dispatchActions (chatId : String) (replyToSender : Bool)
    (numbers : List String) (gen : String → Option String)
    (combined : String) : List Action :=
  Action.generated combined ::
    match gen combined with
    | some resp =>
      if replyToSender then [Action.sent chatId resp]
      else numbers.map fun n => Action.sent n resp
    | none => []

/-- The per-conversation loop of `process_messages` with its actual
string accumulation: `combined` is `combined_content` (note the
source's leading `"\n"` added before every accumulated piece) and
`lastT` is `last_message_time`.  Batch emission and the final flush are
guarded by `if combined_content:` exactly as in the source. -/
def processGroup (chatId : String) (replyToSender : Bool)
    (numbers : List String) (gen : String → Option String) :
    List MsgRow → Option Int → String → List Action
  | [], _, combined =>
    if combined = "" then []
    else dispatchActions chatId replyToSender numbers gen combined
  | m :: rest, lastT, combined =>
    match rowContentStr m with
    | none => processGroup chatId replyToSender numbers gen rest lastT combined
    | some c =>
      match lastT with
      | none =>
        processGroup chatId replyToSender numbers gen rest (some m.ts)
          (combined ++ "\n" ++ c)
      | some lt =>
        if m.ts - lt ≤ WINDOW_NS then
          processGroup chatId replyToSender numbers gen rest (some m.ts)
            (combined ++ "\n" ++ c)
        else
          (if combined = "" then []
           else dispatchActions chatId replyToSender numbers gen combined)
            ++ processGroup chatId replyToSender numbers gen rest (some m.ts) c

/-- Grouping of fetched rows by `chat_identifier`, preserving first-seen
order of chats and arrival order within a chat (Python dict insertion
order). -/
def addToGroups (gs : List (String × List MsgRow)) (m : MsgRow) :
    List (String × List MsgRow) :=
  match gs with
  | [] => [(m.chat, [m])]
  | (c, ms) :: rest =>
    if c = m.chat then (c, ms ++ [m]) :: rest
    else (c, ms) :: addToGroups rest m

def groupByChat (rows : List MsgRow) : List (String × List MsgRow) :=
  rows.foldl addToGroups []

/-- Python's `str.lower()` as used on the `USE_AI` environment value:
character-wise lowercasing. -/
def strLower (s : String) : String := ⟨s.data.map Char.toLower⟩

/-- `process_messages`: returns immediately on an empty fetch; groups
rows by chat; then — before any generation or delivery — reads the
`USE_AI` environment variable and returns with no further action unless
it equals "true" case-insensitively; otherwise runs the coalescing
dispatch loop on each conversation's rows sorted by timestamp. -/
def process_messages (rows : List MsgRow) (useAiEnv : String)
    (replyToSender : Bool) (numbers : List String)
    (gen : String → Option String) : List Action :=
  if rows = [] then []
  else
    let grouped := groupByChat rows
    let useAi := strLower useAiEnv = "true"
    if useAi then
      grouped.flatMap fun g =>
        processGroup g.1 replyToSender numbers gen (sortByTs g.2) none ""
    else []

/-- C9.  Whenever `USE_AI` is not set to "true" case-insensitively,
`process_messages` performs no generation and no delivery at all, for
every input; and the gate is live: with `USE_AI = "True"` a single
in-window row does produce a generation action followed by a send. -/
theorem claim_C9_use_ai_gate (rows : List MsgRow) (useAiEnv : String)
    (replyToSender : Bool) (numbers : List String)
    (gen : String → Option String)
    (h : strLower useAiEnv ≠ "true") :
    process_messages rows useAiEnv replyToSender numbers gen = [] := by
  unfold process_messages
  by_cases hr : rows = [] <;> simp [hr, h]

/-- Witness for C9: with `USE_AI = "False"` (the source's default) a
nonempty fetch with decodable content yields no actions, even though
the same fetch with `USE_AI = "True"` generates and sends. -/
theorem claim_C9_use_ai_gate_witness :
    process_messages [exRow1] "False" true ["num1"] (fun _ => some "reply") = []
    ∧ process_messages [exRow1] "True" true ["num1"] (fun _ => some "reply") =
        [Action.generated "\nhi", Action.sent "A" "reply"] := by
  refine ⟨claim_C9_use_ai_gate [exRow1] "False" true ["num1"]
    (fun _ => some "reply") (by decide), by decide⟩

/-! ## ReminderScheduler: `check_reminders`

A fixed-time trigger is a `(time, prompt)` entry of
`REMINDER_SCHEDULE`; the deduplication state is the
`last_sent_dates[index]` optional date.  Each scheduler tick supplies
the wall clock's "HH:MM" string and the outcome of the
`generate_response` call that would be made on a match. -/

structure Reminder where
  time : String
  prompt : String
deriving DecidableEq, Repr

/-- The source's reminder table. -/
def REMINDER_SCHEDULE : List Reminder :=
  [⟨"08:55", "生成自然唤醒提示，建议起床学习。要求：中文配五言诗句开头，50字以内。"⟩,
   ⟨"10:00", "补水时间提醒，建议饮用温水并活动肩颈。要求：中文押韵口诀，40字左右。"⟩,
   ⟨"13:15", "餐后养生提醒，建议仙人揉腹法教学。要求：中文步骤说明，60字以内。"⟩,
   ⟨"16:20", "黄昏能量提醒，建议锻炼身体。要求：中文带励志名言引用，55字以内。"⟩,
   ⟨"20:45", "数码排毒提醒，建议纸质书阅读时段。要求：中文诗意表达，带诗歌意象。"⟩,
   ⟨"21:10", "足浴养生提醒，建议中药泡脚配方。要求：中医术语通俗化，50字左右。"⟩,
   ⟨"23:00", "生物钟校准提醒，建议478呼吸法指导。要求：中文步骤可视化描述，60字以内。"⟩]

/-- One scheduler evaluation as seen by a single trigger: the current
"HH:MM" string and what `generate_response(reminder["prompt"])` would
return on this tick. -/
structure ReminderTick where
  currentTime : String
  genResult : Option String
deriving DecidableEq, Repr

/-- One evaluation of one trigger in `check_reminders`: on an
exact-minute match with `last_sent_dates.get(index) != today`, generate;
only when generation succeeds are the sends issued and
`last_sent_dates[index] = today` recorded.  Returns the new
deduplication state and whether the trigger fired (generated AND
sent). -/
def checkReminder (r : Reminder) (today : Nat) (tick : ReminderTick)
    (lastSent : Option Nat) : Option Nat × Bool :=
  if tick.currentTime = r.time then
    if lastSent ≠ some today then
      match tick.genResult with
      | some _ => (some today, true)
      | none => (lastSent, false)
    else (lastSent, false)
  else (lastSent, false)

/-- Repeated scheduler evaluations of one trigger across ticks that all
fall on calendar date `today`; returns the final deduplication state
and the number of ticks on which the trigger fired. -/
def runReminderTicks (r : Reminder) (today : Nat) :
    List ReminderTick → Option Nat → Option Nat × Nat
  | [], last => (last, 0)
  | t :: ts, last =>
    let step := checkReminder r today t last
    let rest := runReminderTicks r today ts step.1
    (rest.1, (if step.2 then 1 else 0) + rest.2)

/-- Once the deduplication state records today, no tick of the same
date fires and the state never changes. -/
lemma runReminderTicks_suppressed (r : Reminder) (today : Nat) :
    ∀ ticks, runReminderTicks r today ticks (some today) = (some today, 0) := by
  intro ticks
  induction ticks with
  | nil => rfl
  | cons t ts ih =>
    have hstep : checkReminder r today t (some today) = (some today, false) := by
      unfold checkReminder
      by_cases h : t.currentTime = r.time <;> simp [h]
    simp only [runReminderTicks, hstep, ih]
    rfl

/-- A fired evaluation records today. -/
lemma checkReminder_fire_state (r : Reminder) (today : Nat)
    (tick : ReminderTick) (last : Option Nat)
    (h : (checkReminder r today tick last).2 = true) :
    (checkReminder r today tick last).1 = some today := by
  unfold checkReminder at h ⊢
  by_cases h1 : tick.currentTime = r.time
  · by_cases h2 : last ≠ some today
    · rw [if_pos h1, if_pos h2] at h ⊢
      cases hgen : tick.genResult <;> simp_all
    · rw [if_pos h1, if_neg h2] at h
      simp at h
  · rw [if_neg h1] at h
    simp at h

/-- C6.  For every fixed-time trigger, every calendar date, every
initial deduplication state and every sequence of scheduler ticks on
that date — including many evaluations within the matching minute —
the trigger fires (generates and sends) at most once, because the
firing tick sets the state to today, which suppresses every later
evaluation until the date changes. -/
theorem claim_C6_fixed_trigger_once_per_date (r : Reminder) (today : Nat)
    (ticks : List ReminderTick) (last : Option Nat) :
    (runReminderTicks r today ticks last).2 ≤ 1 := by
  induction ticks generalizing last with
  | nil => simp [runReminderTicks]
  | cons t ts ih =>
    simp only [runReminderTicks]
    by_cases hf : (checkReminder r today t last).2 = true
    · have hstate := checkReminder_fire_state r today t last hf
      rw [hf, hstate, runReminderTicks_suppressed]
      simp
    · simp only [Bool.not_eq_true] at hf
      rw [hf]
      simpa using ih (checkReminder r today t last).1

/-- C10.  When the minute matches but `generate_response` returns
`None`, the deduplication state is left unchanged and nothing is sent;
consequently the trigger stays eligible: a later tick in the same
minute whose generation succeeds does fire and records today. -/
theorem claim_C10_failed_generation_keeps_eligibility (r : Reminder)
    (today : Nat) (tick retryTick : ReminderTick) (last : Option Nat)
    (text : String)
    (hgen : tick.genResult = none)
    (hmatch : retryTick.currentTime = r.time)
    (hretry : retryTick.genResult = some text)
    (helig : last ≠ some today) :
    checkReminder r today tick last = (last, false)
    ∧ checkReminder r today retryTick last = (some today, true) := by
  constructor
  · unfold checkReminder
    by_cases h1 : tick.currentTime = r.time
    · by_cases h2 : last ≠ some today <;> simp [h1, h2, hgen]
    · simp [h1]
  · unfold checkReminder
    simp [hmatch, helig, hretry]

/-- Witness for C10 at the 08:55 trigger: a failed-generation tick on
date 20260101 leaves the state `none`; a later successful tick fires. -/
theorem claim_C10_failed_generation_keeps_eligibility_witness :
    checkReminder ⟨"08:55", "p"⟩ 20260101 ⟨"08:55", none⟩ none = (none, false)
    ∧ checkReminder ⟨"08:55", "p"⟩ 20260101 ⟨"08:55", some "早安"⟩ none =
        (some 20260101, true) :=
  claim_C10_failed_generation_keeps_eligibility ⟨"08:55", "p"⟩ 20260101
    ⟨"08:55", none⟩ ⟨"08:55", some "早安"⟩ none "早安" rfl rfl rfl (by decide)

/-! ## Probabilistic trigger: `check_study_time`

State is the global `LAST_STUDY_CHECK_TIME`; time is modelled as an
integer Unix timestamp in seconds (so the wall-clock hour is
`now / 3600 % 24` and `timedelta(minutes=60)` is 3600 seconds).  The
`random.random()` draw and the generation outcome are inputs. -/

def WORK_START_HOUR : Int := 9

def WORK_END_HOUR : Int := 18

def STUDY_CHECK_INTERVAL_SECONDS : Int := 3600

/-- The source's `probability = 1 / 20`. -/
def STUDY_PROBABILITY : ℚ := 1 / 20

/-- `LAST_STUDY_CHECK_TIME is None or (now - LAST_STUDY_CHECK_TIME) >=
timedelta(minutes=STUDY_CHECK_INTERVAL_MINUTES)`. -/
def studyEligible (now : Int) (last : Option Int) : Bool :=
  match last with
  | none => true
  | some lt => decide (now - lt ≥ STUDY_CHECK_INTERVAL_SECONDS)

/-- Observable outcome of one `check_study_time` evaluation: the new
`LAST_STUDY_CHECK_TIME`, whether a random draw was taken, whether the
check fired (draw below the probability), and the recipients actually
sent to. -/
structure StudyResult where
  newLast : Option Int
  drew : Bool
  fired : Bool
  sentTo : List String
deriving DecidableEq, Repr

/-- `check_study_time`: inside the work-hour window, when the interval
check passes, draw once; on `draw < probability` generate, send on
success, and set `LAST_STUDY_CHECK_TIME = now` — the update sits inside
the fired branch only, so a skipped draw leaves the timestamp
untouched. -/
def check_study_time (now : Int) (draw : ℚ) (genResult : Option String)
    (numbers : List String) (last : Option Int) : StudyResult :=
  let hour := now / 3600 % 24
  if WORK_START_HOUR ≤ hour ∧ hour < WORK_END_HOUR then
    if studyEligible now last then
      if draw < STUDY_PROBABILITY then
        ⟨some now, true, true,
         match genResult with
         | some _ => numbers
         | none => []⟩
      else ⟨last, true, false, []⟩
    else ⟨last, false, false, []⟩
  else ⟨last, false, false, []⟩

/-- C5 counterexample: at 10:00 (in the work window) with no previous
check, a draw of 1/2 ≥ 1/20 skips the check but leaves
`LAST_STUDY_CHECK_TIME` at `none` — the last-evaluated timestamp is NOT
updated on a skipped draw — and ten seconds later, well inside the
configured one-hour interval, the trigger draws again. -/
theorem claim_C5_counterexample :
    (check_study_time 36000 (1 / 2) (some "resp") ["num1"] none).drew = true
    ∧ (check_study_time 36000 (1 / 2) (some "resp") ["num1"] none).newLast = none
    ∧ (check_study_time 36010 (1 / 2) (some "resp") ["num1"]
        (check_study_time 36000 (1 / 2) (some "resp") ["num1"] none).newLast).drew
        = true := by
  norm_num [check_study_time, studyEligible, STUDY_PROBABILITY,
    WORK_START_HOUR, WORK_END_HOUR]

/-- C5 amended.  The trigger is evaluated only within the work-hour
window (outside it nothing happens at all); a fired draw sets the
timestamp to `now`, which suppresses every evaluation for the next
interval; but a skipped draw leaves the timestamp unchanged, so the
trigger is re-evaluated at the very next tick — the rate limit bounds
fires, not evaluations. -/
theorem claim_C5_amended_rate_limit (now : Int) (draw : ℚ)
    (genResult : Option String) (numbers : List String) (last : Option Int) :
    (¬(WORK_START_HOUR ≤ now / 3600 % 24 ∧ now / 3600 % 24 < WORK_END_HOUR) →
      check_study_time now draw genResult numbers last = ⟨last, false, false, []⟩)
    ∧ ((check_study_time now draw genResult numbers last).fired = true →
      (check_study_time now draw genResult numbers last).newLast = some now)
    ∧ ((check_study_time now draw genResult numbers last).drew = true →
      (check_study_time now draw genResult numbers last).fired = false →
      (check_study_time now draw genResult numbers last).newLast = last)
    ∧ (∀ lt, last = some lt → now - lt < STUDY_CHECK_INTERVAL_SECONDS →
      (check_study_time now draw genResult numbers last).drew = false) := by
  unfold check_study_time
  by_cases hw : WORK_START_HOUR ≤ now / 3600 % 24 ∧ now / 3600 % 24 < WORK_END_HOUR
  · by_cases he : studyEligible now last = true
    · by_cases hd : draw < STUDY_PROBABILITY
      · refine ⟨fun hc => absurd hw hc, ?_, ?_, ?_⟩
        · intro _
          simp [hw, he, hd]
        · intro _ hfired
          simp [hw, he, hd] at hfired
        · intro lt hlt hiv
          exfalso
          rw [hlt] at he
          unfold studyEligible at he
          simp at he
          omega
      · refine ⟨fun hc => absurd hw hc, ?_, ?_, ?_⟩
        · intro hfired
          simp [hw, he, hd] at hfired
        · intro _ _
          simp [hw, he, hd]
        · intro lt hlt hiv
          exfalso
          rw [hlt] at he
          unfold studyEligible at he
          simp at he
          omega
    · simp only [Bool.not_eq_true] at he
      refine ⟨fun hc => absurd hw hc, ?_, ?_, ?_⟩
      · intro hfired
        simp [hw, he] at hfired
      · intro hdrew
        simp [hw, he] at hdrew
      · intro lt _ _
        simp [hw, he]
  · refine ⟨fun _ => by simp [hw], ?_, ?_, ?_⟩
    · intro hfired
      simp [hw] at hfired
    · intro hdrew
      simp [hw] at hdrew
    · intro lt _ _
      simp [hw]

/-- Witness for the amended C5: at 07:00 (outside the window) nothing
is evaluated even with the draw forced below the probability; and at
10:00, one second after a recorded check, no draw is taken. -/
theorem claim_C5_amended_rate_limit_witness :
    check_study_time 25200 0 (some "resp") ["num1"] none = ⟨none, false, false, []⟩
    ∧ (check_study_time 36000 (1 / 2) (some "resp") ["num1"]
        (some 35999)).drew = false :=
  ⟨(claim_C5_amended_rate_limit 25200 0 (some "resp") ["num1"] none).1 (by decide),
   (claim_C5_amended_rate_limit 36000 (1 / 2) (some "resp") ["num1"]
      (some 35999)).2.2.2 35999 rfl (by decide)⟩

/-! ## RichTextDecoder: `decode_attributed_body`

The typedstream parser (`TypedStreamReader.from_data`) is external; it
is modelled as a function from the payload to the sequence of events it
yields before either finishing or raising.  The wrapper's own logic —
the emptiness guard, the scan for the first `bytes` event, the blanket
`except` converting any parse fault into `None`, and the implicit
`None` when no byte string occurs — is translated directly. -/

inductive TSEvent where
  | bytesEvent (b : List Nat)
  | otherEvent
deriving DecidableEq, Repr

/-- What iterating `TypedStreamReader.from_data(data)` observably does:
the events yielded in order, and whether the iteration then raised
(instead of completing).  A fault before the first event is a stream
with no yielded events and `errored = true`. -/
structure TSStream where
  yielded : List TSEvent
  errored : Bool
deriving DecidableEq, Repr

/-- First `bytes` event of the yielded prefix, the value the source's
`for` loop returns on. -/
def firstBytes : List TSEvent → Option (List Nat)
  | [] => none
  | .bytesEvent b :: _ => some b
  | .otherEvent :: rest => firstBytes rest

/-- `decode_attributed_body`: `None` on falsy input; otherwise iterate
the reader's events and return the first byte string decoded with
`errors="ignore"` (the total function `utf8ignore`); if the iteration
raises — before or after any non-bytes events — the `except` clause
returns `None`, and if it completes without a byte string the function
falls through to `None`. -/
def decode_attributed_body (reader : List Nat → TSStream)
    (utf8ignore : List Nat → String) :
    Option (List Nat) → Option String
  | none => none
  | some [] => none
  | some bs =>
    match firstBytes (reader bs).yielded with
    | some b => some (utf8ignore b)
    | none => none

/-- C7.  For every parser behaviour and every input blob the decoder
returns a value (it is a total function — no parse fault escapes): on
missing or empty input it returns `none`; whenever the parser yields no
byte string before finishing or raising it returns `none`; and whenever
a byte string is yielded it returns the decoding of the first one. -/
theorem claim_C7_decoder_total (reader : List Nat → TSStream)
    (utf8ignore : List Nat → String) :
    (decode_attributed_body reader utf8ignore none = none
      ∧ decode_attributed_body reader utf8ignore (some []) = none)
    ∧ (∀ bs, firstBytes (reader bs).yielded = none →
      decode_attributed_body reader utf8ignore (some bs) = none)
    ∧ (∀ bs b, bs ≠ [] → firstBytes (reader bs).yielded = some b →
      decode_attributed_body reader utf8ignore (some bs) = some (utf8ignore b)) := by
  refine ⟨⟨rfl, rfl⟩, ?_, ?_⟩
  · intro bs hnone
    cases bs with
    | nil => rfl
    | cons x xs => simp [decode_attributed_body, hnone]
  · intro bs b hne hsome
    cases bs with
    | nil => exact absurd rfl hne
    | cons x xs => simp [decode_attributed_body, hsome]

/-- A parser model for the witness: payload `[72]` parses to a
non-bytes event followed by the byte string `[104, 105]`; any other
payload yields one non-bytes event and then raises. -/
def exReader : List Nat → TSStream :=
  fun bs =>
    if bs = [72] then ⟨[.otherEvent, .bytesEvent [104, 105]], false⟩
    else ⟨[.otherEvent], true⟩

/-- UTF-8 decoding with `errors="ignore"` for the witness's byte
strings. -/
def exUtf8 : List Nat → String :=
  fun b => if b = [104, 105] then "hi" else ""

/-- Witness for C7: empty input, a malformed (raising) payload, and a
payload containing a byte string. -/
theorem claim_C7_decoder_total_witness :
    decode_attributed_body exReader exUtf8 none = none
    ∧ decode_attributed_body exReader exUtf8 (some [9]) = none
    ∧ decode_attributed_body exReader exUtf8 (some [72]) = some "hi" :=
  ⟨(claim_C7_decoder_total exReader exUtf8).1.1,
   (claim_C7_decoder_total exReader exUtf8).2.1 [9] (by decide),
   by
     have h := (claim_C7_decoder_total exReader exUtf8).2.2 [72] [104, 105]
       (by decide) (by decide)
     simpa [exUtf8] using h⟩

/-! ## Startup: `main`

`main()` checks only `PHONE_NUMBERS`: when the list is empty it prints
the error and returns — `asyncio.run` then completes normally and the
interpreter exits with status 0.  No credential is inspected before the
polling loop; `DEEPSEEK_API_KEY` is checked inside `generate_response`
on every call (modelled above by the `apiKey` parameter). -/

structure StartupResult where
  entersLoop : Bool
  exitCode : Nat
deriving DecidableEq, Repr

/-- The startup behaviour of `main`: the recipient-list guard, and
loop entry otherwise; the credential plays no role. -/
def mainStartup (phoneNumbers : List String) (_apiKey : Option String) :
    StartupResult :=
  if phoneNumbers = [] then ⟨false, 0⟩ else ⟨true, 0⟩

/-- C8 counterexample: a missing credential does not prevent loop entry
(the loop is entered with recipients configured and no key), and the
empty-recipient exit carries status 0, not a non-zero code. -/
theorem claim_C8_counterexample :
    (mainStartup ["15550000000"] none).entersLoop = true
    ∧ (mainStartup [] (some "key")).exitCode = 0 := by
  decide

/-- C8 amended.  An empty recipient list is reported at startup and the
main loop is not entered, but the process exits with status 0; a
missing backend credential does not prevent loop entry — it is
discovered inside each `generate_response` call, which reports it and
returns `None` without issuing any request. -/
theorem claim_C8_amended_startup (numbers : List String)
    (apiKey : Option String) :
    (numbers = [] → mainStartup numbers apiKey = ⟨false, 0⟩)
    ∧ (numbers ≠ [] → (mainStartup numbers apiKey).entersLoop = true)
    ∧ (∀ retries primary fallback,
      generate_response none retries primary fallback = ⟨0, [], 0, none, none⟩) := by
  refine ⟨?_, ?_, ?_⟩
  · intro h
    simp [mainStartup, h]
  · intro h
    simp [mainStartup, h]
  · intro _ _ _
    rfl

/-- Witness for the amended C8. -/
theorem claim_C8_amended_startup_witness :
    mainStartup [] none = ⟨false, 0⟩
    ∧ (mainStartup ["15550000000"] none).entersLoop = true
    ∧ generate_response none RETRIES (fun _ => Outcome.requestError)
        Outcome.requestError = ⟨0, [], 0, none, none⟩ :=
  ⟨(claim_C8_amended_startup [] none).1 rfl,
   (claim_C8_amended_startup ["15550000000"] none).2.1 (by decide),
   (claim_C8_amended_startup [] none).2.2 RETRIES
     (fun _ => Outcome.requestError) Outcome.requestError⟩

end DeepiMessage
